import Mathlib

/-!
Verification development for the dspy-kg repository.

The repository orchestrates calls to external collaborators (an LLM
completion service, the rdflib parser, the Firecrawl scraper).  Those
collaborators are modelled here as explicit oracle functions passed in as
parameters; everything the repository itself computes (string processing,
loop structure, accumulator threading, file assembly) is translated
faithfully from the Python source.  Python strings are modelled as Lean
strings with ASCII character semantics (the sources only manipulate ASCII
syntax such as prefixes, underscores and URL characters).
-/

namespace DspyKg

/-! ## Generic string helpers (used to state properties of the embeddings) -/

/-- True when the first list is a prefix of the second (decidable, executable). -/
def startsWithL : List Char → List Char → Bool
  | [], _ => true
  | _ :: _, [] => false
  | a :: as, b :: bs => a = b && startsWithL as bs

/-- True when the first list occurs as a contiguous subsequence of the second. -/
def containsSeq (needle : List Char) : List Char → Bool
  | [] => startsWithL needle []
  | c :: cs => startsWithL needle (c :: cs) || containsSeq needle cs

/-- String-level wrapper of `startsWithL`, mirroring the Python method
`str.startswith`. -/
def strStartsWith (pre s : String) : Bool := startsWithL pre.toList s.toList

/-- String-level wrapper of `containsSeq`, mirroring the Python operator
`needle in s`. -/
def strContains (needle s : String) : Bool := containsSeq needle.toList s.toList

/-- Split a character list at every newline, keeping empty pieces, as the
Python method `split` with a newline separator does. -/
def splitLinesChar : List Char → List (List Char)
  | [] => [[]]
  | c :: cs =>
    let r := splitLinesChar cs
    if c = '\n' then [] :: r
    else
      match r with
      | [] => [[c]]
      | h :: t => (c :: h) :: t

/-- The lines of a string: Python `s.split` with a newline separator. -/
def strSplitLines (s : String) : List String :=
  (splitLinesChar s.toList).map List.asString

/-! ## kg-openai.py: slugify

Python source:
```
_slug_rx = re.compile(r"[^a-zA-Z0-9]+")
def slugify(value: str) -> str:
    value = _slug_rx.sub("_", value.strip().lower())
    return re.sub(r"_\x7b2,\x7d", "_", value).strip("_")
```
The pipeline: strip surrounding whitespace, lowercase, replace each maximal
run of non-alphanumeric characters by one underscore, collapse runs of two
or more underscores, strip surrounding underscores. -/

/-- Python str.strip() on a character list: drop whitespace at both ends. -/
def pyStrip (l : List Char) : List Char :=
  ((l.dropWhile Char.isWhitespace).reverse.dropWhile Char.isWhitespace).reverse

/-- The regex substitution replacing runs matching `[^a-zA-Z0-9]+` with one
underscore: the flag records whether the previous character was part of a
non-alphanumeric run already replaced (characters of such a run are skipped). -/
def subRunsAux : Bool → List Char → List Char
  | _, [] => []
  | inRun, c :: cs =>
    if c.isAlphanum then c :: subRunsAux false cs
    else if inRun then subRunsAux true cs
    else '_' :: subRunsAux true cs

/-- Replace each maximal run of non-alphanumeric characters by a single
underscore (the first regex substitution of `slugify`). -/
def subRuns (l : List Char) : List Char := subRunsAux false l

/-- The regex substitution underscore-run -> single underscore (the second
substitution of `slugify`). -/
def collapseUndAux : Bool → List Char → List Char
  | _, [] => []
  | inRun, c :: cs =>
    if c = '_' then
      if inRun then collapseUndAux true cs
      else '_' :: collapseUndAux true cs
    else c :: collapseUndAux false cs

/-- Collapse every maximal run of underscores to one underscore. -/
def collapseUnd (l : List Char) : List Char := collapseUndAux false l

/-- Python str.strip(underscore): drop underscores at both ends. -/
def stripUnd (l : List Char) : List Char :=
  ((l.dropWhile (· = '_')).reverse.dropWhile (· = '_')).reverse

/-- kg-openai.py `slugify`: convert strings to URL-friendly slugs. -/
def slugify (value : String) : String :=
  let lowered := (pyStrip value.toList).map Char.toLower
  ⟨stripUnd (collapseUnd (subRuns lowered))⟩

/-! ## kg-openai.py: KnowledgeGraphProgram.forward

The extraction of triples is an LLM call (modelled as the given triple
list); the graph construction from the triples is the repository's own
code and is embedded below.  An rdflib node is either a `URIRef` or a
`Literal`. -/

/-- A structured (subject, predicate, object) record, as extracted by the
`TripleExtractor` module of kg-openai.py. -/
structure Triple where
  subject : String
  predicate : String
  object : String
deriving DecidableEq, Repr

/-- An rdflib node: a URI reference or a literal value. -/
inductive RdfNode where
  | uri (u : String)
  | lit (v : String)
deriving DecidableEq, Repr

/-- The object node built by `KnowledgeGraphProgram.forward` for one triple:
`Literal(t.object) if " " in t.object else URIRef(str(self.base) + slugify(t.object))`. -/
def objectNode (base : String) (t : Triple) : RdfNode :=
  if strContains (" ") t.object then .lit t.object
  else .uri (base ++ slugify t.object)

/-- The pair of graph additions `KnowledgeGraphProgram.forward` performs for
one extracted triple: `(s_uri, p_uri, o_node)` and `(theme_uri, relatesTo, s_uri)`. -/
def tripleAdditions (base theme : String) (t : Triple) :
    List (RdfNode × RdfNode × RdfNode) :=
  let sUri : RdfNode := .uri (base ++ slugify t.subject)
  let pUri : RdfNode := .uri (base ++ slugify t.predicate)
  let themeUri : RdfNode := .uri (base ++ slugify theme)
  let relatesTo : RdfNode := .uri (base ++ ("relatesTo"))
  [(sUri, pUri, objectNode base t), (themeUri, relatesTo, sUri)]

/-- The full list of graph additions of `KnowledgeGraphProgram.forward`: the
theme title triple, then the two additions per extracted triple, in input
order.  The extracted triples stand in for the LLM call. -/
def kgProgramForward (base theme : String) (triples : List Triple) :
    List (RdfNode × RdfNode × RdfNode) :=
  (RdfNode.uri (base ++ slugify theme), RdfNode.uri ("http://purl.org/dc/terms/title"),
      RdfNode.lit theme) ::
    (triples.map (tripleAdditions base theme)).flatten

/-! ## kg-anthropic.py: ThemeBasedKnowledgeGraphExtractor.forward

The LLM call and the rdflib parse are oracles; the branch structure around
them is the repository's code. -/

/-- An in-memory rdflib graph, abstracted to its triple list. -/
def TurtleGraph := List (String × String × String)
deriving DecidableEq

/-- The external collaborators of kg-anthropic.py: the chain-of-thought
extraction call (theme and text to a Turtle string) and the rdflib Turtle
parser (which either returns a graph or raises, reported as an error
message). -/
structure ExtractOracle where
  extract : String → String → String
  parse : String → Except String TurtleGraph

/-- The result record built by `ThemeBasedKnowledgeGraphExtractor.forward`:
`dspy.Prediction(rdf_turtle=..., graph=..., error=...)`, with `error` absent
(here `none`) on the success path. -/
structure KgPrediction where
  rdf_turtle : String
  graph : Option TurtleGraph
  error : Option String
deriving DecidableEq

/-- kg-anthropic.py `ThemeBasedKnowledgeGraphExtractor.forward`: one
extraction call, then a guarded parse; a parse failure is recovered by
returning the raw text together with the error message. -/
def themeExtractorForward (o : ExtractOracle) (theme text : String) :
    KgPrediction :=
  let rdf := o.extract theme text
  match o.parse rdf with
  | .error e => { rdf_turtle := rdf, graph := none, error := some e }
  | .ok g => { rdf_turtle := rdf, graph := some g, error := none }

/-! ## landscape.py: IncrementalLandscapeBuilder.forward

A page is the dictionary built by the crawler.  The Python metadata dict is
abstracted to its printed form, a string, with the empty string standing for
the empty (falsy) dict.  The three LLM calls of the incremental builder are
an oracle record; `forward` itself — the schema branch, the merge loop and
its accumulator threading — is translated from the source.  The embedding is
instrumented with the list of inputs passed to the per-page extraction
chain-of-thought call, so that call counts are facts of the embedding. -/

/-- A crawled page: the dict with url, text and metadata keys. -/
structure Page where
  url : String
  text : String
  metadata : String
deriving DecidableEq, Repr

/-- The input record of one per-page extraction call: the domain, the full
text (page text plus metadata suffix) and the url. -/
structure ExtractCall where
  domain : String
  text : String
  url : String
deriving DecidableEq, Repr

/-- The LLM collaborators of `IncrementalLandscapeBuilder`: the per-page RDF
extraction, the initial schema inference over sample pages, and the
incremental merge (canonical, new page rdf, source url, domain). -/
structure LandscapeOracle where
  extractRdf : String → String → String → String
  schemaInfer : String → String → String
  merge : String → String → String → String → String

/-- The metadata suffix `_extract_page_rdf` appends to the page text: empty
for a falsy metadata dict, otherwise a newline and the printed dict. -/
def metadataStr (metadata : String) : String :=
  if metadata = ("") then ("") else ("\nPage metadata: ") ++ metadata

/-- landscape.py `IncrementalLandscapeBuilder._extract_page_rdf`: one
extraction call over the text extended with the metadata suffix. -/
def extractPageRdf (o : LandscapeOracle) (domain : String) (p : Page) : String :=
  o.extractRdf domain (p.text ++ metadataStr p.metadata) p.url

/-- The input record of the extraction call `_extract_page_rdf` issues for a
page (used by the instrumented embedding to trace calls). -/
def extractCallOf (domain : String) (p : Page) : ExtractCall :=
  ⟨domain, p.text ++ metadataStr p.metadata, p.url⟩

/-- The incremental merge loop of `forward`: for each page in order, extract
its RDF and replace the accumulator with the merge call output.  Returns the
final accumulator and the trace of extraction calls the loop issued. -/
def mergeLoop (o : LandscapeOracle) (domain : String) (canonical : String) :
    List Page → String × List ExtractCall
  | [] => (canonical, [])
  | p :: rest =>
    let pageRdf := extractPageRdf o domain p
    let next := mergeLoop o domain (o.merge canonical pageRdf p.url domain) rest
    (next.1, extractCallOf domain p :: next.2)

/-- The result of `IncrementalLandscapeBuilder.forward`: the prediction
fields plus the instrumentation traces (extraction-call inputs in order, and
the schema-inference calls with their (domain, sample_pages) inputs). -/
structure ForwardResult where
  canonical_graph : String
  pages_processed : Nat
  extractCalls : List ExtractCall
  schemaCalls : List (String × String)
deriving DecidableEq, Repr

/-- landscape.py `IncrementalLandscapeBuilder.forward`: when more than 3
pages are given, extract the first 3 pages, infer a schema over their
fragments joined by a separator and seed the accumulator with it; then merge
every page in input order; finally return the canonical graph and the page
count. -/
def landscapeForward (o : LandscapeOracle) (domain : String) (pages : List Page) :
    ForwardResult :=
  if pages.length > 3 then
    let initialRdfs := (pages.take 3).map (extractPageRdf o domain)
    let sample := String.intercalate ("\n---\n") initialRdfs
    let canonical := o.schemaInfer domain sample
    let loop := mergeLoop o domain canonical pages
    { canonical_graph := loop.1
      pages_processed := pages.length
      extractCalls := (pages.take 3).map (extractCallOf domain) ++ loop.2
      schemaCalls := [(domain, sample)] }
  else
    let loop := mergeLoop o domain ("") pages
    { canonical_graph := loop.1
      pages_processed := pages.length
      extractCalls := loop.2
      schemaCalls := [] }

/-- The seed of the merge loop, as the claims describe it: the schema text
returned by the inference call when more than 3 pages are given, the empty
string otherwise. -/
def seedRdf (o : LandscapeOracle) (domain : String) (pages : List Page) : String :=
  if pages.length > 3 then
    o.schemaInfer domain
      (String.intercalate ("\n---\n") ((pages.take 3).map (extractPageRdf o domain)))
  else ("")

/-- The one merge step of the loop, as a fold function over the accumulator. -/
def mergeStep (o : LandscapeOracle) (domain : String) (canonical : String)
    (p : Page) : String :=
  o.merge canonical (extractPageRdf o domain p) p.url domain

/-! ## landscape.py: crawl_pages_with_firecrawl

The Firecrawl client is an oracle from a url to one of the outcomes the
source distinguishes: an exception from the client, a falsy result, a
ScrapeResponse-like object carrying a markdown attribute, a dict result with
its three possible content keys, or an object of unexpected type.  Optional
string fields model attributes or keys that may be absent (`none`) and
Python truthiness makes the empty string falsy. -/

/-- One outcome of `firecrawl_app.scrape_url(url)` as the source's branches
distinguish them. -/
inductive FetchResult where
  | exn (msg : String)
  | falsy
  | scrape (markdown : Option String) (metadata : Option String)
  | dict (markdown : Option String) (content : Option String)
      (dataMarkdown : Option String) (metadata : Option String)
      (dataMetadata : Option String)
  | other
deriving DecidableEq, Repr

/-- Python truthiness of an optional string: present and non-empty. -/
def truthy : Option String → Bool
  | some s => s ≠ ("")
  | none => false

/-- The Python `or` of two optional strings: the first when truthy, else the
second. -/
def pyOr (a b : Option String) : Option String := if truthy a then a else b

/-- The page `crawl_pages_with_firecrawl` appends for one url, or `none` when
the branch reached skips the url.  The metadata dict defaults to the empty
dict (here the empty string) when absent. -/
def fetchPage (r : FetchResult) (url : String) : Option Page :=
  match r with
  | .exn _ => none
  | .falsy => none
  | .scrape markdown metadata =>
    if truthy markdown then some ⟨url, markdown.getD (""), metadata.getD ("")⟩
    else none
  | .dict markdown content dataMarkdown metadata dataMetadata =>
    let c := pyOr (pyOr markdown content) dataMarkdown
    let m := pyOr metadata dataMetadata
    if truthy c then some ⟨url, c.getD (""), m.getD ("")⟩ else none
  | .other => none

/-- The diagnostic lines the failing branches of the crawl loop print for one
url (the success branches print progress lines, not diagnostics). -/
def fetchDiagnostics (r : FetchResult) (url : String) : List String :=
  match r with
  | .exn msg => [("Error crawling ") ++ url ++ (": ") ++ msg]
  | .falsy => [("Warning: Empty result for ") ++ url]
  | .scrape markdown _ =>
    if truthy markdown then []
    else [("Warning: No markdown content in result for ") ++ url]
  | .dict markdown content dataMarkdown _ _ =>
    if truthy (pyOr (pyOr markdown content) dataMarkdown) then []
    else [("Warning: No content found in result for ") ++ url]
  | .other => [("Warning: Unexpected result type for ") ++ url]

/-- landscape.py `crawl_pages_with_firecrawl`: iterate over the urls, append
one page per successful fetch, skip failures after logging, and return the
page list together with the diagnostics printed. -/
def crawlPages (fetch : String → FetchResult) :
    List String → List Page × List String
  | [] => ([], [])
  | url :: rest =>
    let next := crawlPages fetch rest
    match fetchPage (fetch url) url with
    | some p => (p :: next.1, fetchDiagnostics (fetch url) url ++ next.2)
    | none => (next.1, fetchDiagnostics (fetch url) url ++ next.2)

/-! ## landscape_schema.py: SchemaBasedLandscapeBuilder and the pipeline

The two LLM calls (common-schema extraction and per-page instance
extraction) are an oracle record.  The Python instances dict is modelled as
an association list in insertion order with last-write-wins on a repeated
key, which is exactly the dict semantics the source relies on. -/

/-- The LLM collaborators of `SchemaBasedLandscapeBuilder`: the schema
extraction (domain, pages_content) and the instance extraction
(schema, domain, page_content, page_url). -/
structure SchemaOracle where
  schemaExtract : String → String → String
  instanceExtract : String → String → String → String → String

/-- The pages_content string `extract_schema` builds: the first 1000
characters of each page text with a url header, joined by a page separator. -/
def schemaPagesContent (pages : List Page) : String :=
  String.intercalate ("\n\n---PAGE---\n\n")
    (pages.map fun p => ("URL: ") ++ p.url ++ ("\nContent: ") ++ (p.text.take 1000) ++ ("..."))

/-- landscape_schema.py `SchemaBasedLandscapeBuilder.extract_schema`: one
schema-extraction call over the combined page contents. -/
def extractSchema (o : SchemaOracle) (domain : String) (pages : List Page) : String :=
  o.schemaExtract domain (schemaPagesContent pages)

/-- landscape_schema.py `SchemaBasedLandscapeBuilder.extract_instances`: one
instance-extraction call for a single page, depending only on the schema,
the domain and that page. -/
def extractInstances (o : SchemaOracle) (schema domain : String) (p : Page) : String :=
  o.instanceExtract schema domain p.text p.url

/-- Python dict assignment on an association list: replace the value of an
existing key in place, else append the new binding. -/
def dictInsert (d : List (String × String)) (k v : String) : List (String × String) :=
  if d.any (fun kv => kv.1 = k) then
    d.map fun kv => if kv.1 = k then (k, v) else kv
  else d ++ [(k, v)]

/-- Association-list read of the Python dict (first binding of the key). -/
def dictFind (d : List (String × String)) (k : String) : Option String :=
  (d.find? (fun kv => kv.1 = k)).map (fun kv => kv.2)

/-- The instances dict built by the loop of
`SchemaBasedLandscapeBuilder.forward`: one instance-extraction call per page
in order, stored keyed by the page url. -/
def instancesLoop (o : SchemaOracle) (schema domain : String)
    (d : List (String × String)) : List Page → List (String × String)
  | [] => d
  | p :: rest =>
    instancesLoop o schema domain
      (dictInsert d p.url (extractInstances o schema domain p)) rest

/-- landscape_schema.py `SchemaBasedLandscapeBuilder.forward`: extract the
common schema once, then extract instances for each page. -/
def schemaBuilderForward (o : SchemaOracle) (domain : String) (pages : List Page) :
    String × List (String × String) :=
  let schema := extractSchema o domain pages
  (schema, instancesLoop o schema domain [] pages)

/-- landscape_schema.py has its own `crawl_pages_with_firecrawl`: a page is
appended when the result is truthy and has a markdown attribute; there is no
content truthiness check in this variant. -/
def fetchPageSchema (r : FetchResult) (url : String) : Option Page :=
  match r with
  | .exn _ => none
  | .falsy => none
  | .scrape markdown metadata => some ⟨url, markdown.getD (""), metadata.getD ("")⟩
  | .dict _ _ _ _ _ => none
  | .other => none

/-- The crawl loop of landscape_schema.py: one page per url whose fetch
succeeds, in order. -/
def crawlPagesSchema (fetch : String → FetchResult) : List String → List Page
  | [] => []
  | url :: rest =>
    match fetchPageSchema (fetch url) url with
    | some p => p :: crawlPagesSchema fetch rest
    | none => crawlPagesSchema fetch rest

/-! ### File assembly of build_landscape_schema_and_instances -/

/-- The schema file name: the lowercased domain with spaces replaced by
dashes, then a schema suffix. -/
def schemaFileName (domain : String) : String :=
  ((domain.toLower).replace (" ") ("-")) ++ ("-schema.ttl")

/-- The merged file name: the lowercased domain with spaces replaced by
dashes, then an all-instances suffix. -/
def mergedFileName (domain : String) : String :=
  ((domain.toLower).replace (" ") ("-")) ++ ("-all-instances.ttl")

/-- The per-url instance file name: strip the scheme, replace slashes and
dots by underscores, append the Turtle extension. -/
def instanceFileName (url : String) : String :=
  (((url.replace ("https://") ("")).replace ("/") ("_")).replace (".") ("_")) ++ (".ttl")

/-- os.path.join of the output directory and a file name. -/
def joinPath (dir name : String) : String := dir ++ ("/") ++ name

/-- The content written to one instance file: two prefix declarations, an
owl-imports reference to the schema file, and the instance fragment. -/
def instanceFileContent (schemaFn instanceRdf : String) : String :=
  ("@prefix : <http://example.org/ai-writing-tools#> .\n") ++
  ("@prefix owl: <http://www.w3.org/2002/07/owl#> .\n\n") ++
  ("# This instance file imports the schema\n") ++
  ("<> owl:imports <./") ++ schemaFn ++ ("> .\n\n") ++
  ("# Instance data that conforms to the imported schema\n") ++
  instanceRdf

/-- The fixed header lines of the merged file: six prefix declarations, a
blank line, a comment, the single owl-imports statement, a blank line and
the section banner. -/
def mergedHeaderLines (schemaFn : String) : List String :=
  [("@prefix : <http://example.org/ai-writing-tools#> ."),
   ("@prefix rdfs: <http://www.w3.org/2000/01/rdf-schema#> ."),
   ("@prefix rdf: <http://www.w3.org/1999/02/22-rdf-syntax-ns#> ."),
   ("@prefix xsd: <http://www.w3.org/2001/XMLSchema#> ."),
   ("@prefix prov: <http://www.w3.org/ns/prov#> ."),
   ("@prefix owl: <http://www.w3.org/2002/07/owl#> ."),
   (""),
   ("# This file imports the schema"),
   ("<> owl:imports <./") ++ schemaFn ++ ("> ."),
   (""),
   ("### All Instance Data ###")]

/-- The single import statement of the merged file. -/
def importLine (schemaFn : String) : String :=
  ("<> owl:imports <./") ++ schemaFn ++ ("> .")

/-- The merged-file header lines before the import statement. -/
def mergedHeaderPre : List String :=
  [("@prefix : <http://example.org/ai-writing-tools#> ."),
   ("@prefix rdfs: <http://www.w3.org/2000/01/rdf-schema#> ."),
   ("@prefix rdf: <http://www.w3.org/1999/02/22-rdf-syntax-ns#> ."),
   ("@prefix xsd: <http://www.w3.org/2001/XMLSchema#> ."),
   ("@prefix prov: <http://www.w3.org/ns/prov#> ."),
   ("@prefix owl: <http://www.w3.org/2002/07/owl#> ."),
   (""),
   ("# This file imports the schema")]

/-- The merged-file header lines after the import statement. -/
def mergedHeaderPost : List String :=
  [(""), ("### All Instance Data ###")]

/-- The lines one instance fragment contributes to the merged file: a blank
line, a provenance banner, then the fragment lines that do not start with a
prefix declaration (the source strips those to avoid duplication). -/
def mergedSectionLines (url instanceRdf : String) : List String :=
  ("") :: (("### From ") ++ url ++ (" ###")) ::
    (strSplitLines instanceRdf).filter (fun l => !(strStartsWith ("@prefix") l))

/-- All lines of the merged file, in write order. -/
def mergedLines (schemaFn : String) (instances : List (String × String)) :
    List String :=
  mergedHeaderLines schemaFn ++
    (instances.map (fun kv => mergedSectionLines kv.1 kv.2)).flatten

/-- Join file lines back into the written file content: every line is
written with a trailing newline. -/
def unlines (lines : List String) : String :=
  lines.foldl (fun acc l => acc ++ l ++ ("\n")) ("")

/-- The record `build_landscape_schema_and_instances` returns, plus the
observable effects: the directory-creation flag, the ordered file writes
(path and content), and the traces of the two kinds of LLM calls. -/
structure BuildOutput where
  dirCreated : Bool
  writes : List (String × String)
  schema : String
  instances : List (String × String)
  pages_processed : Nat
  schemaCalls : List (String × String)
  instanceCalls : List (String × String × String × String)
deriving Repr

/-- landscape_schema.py `build_landscape_schema_and_instances`: create the
output directory, crawl the urls, return an empty record early when no page
was fetched, otherwise run the builder and write the schema file, one
instance file per dict entry and the merged file. -/
def buildLandscape (o : SchemaOracle) (fetch : String → FetchResult)
    (domain : String) (urls : List String) (outputDir : String) : BuildOutput :=
  let pages := crawlPagesSchema fetch urls
  if pages = [] then
    { dirCreated := true, writes := [], schema := (""), instances := []
      pages_processed := 0, schemaCalls := [], instanceCalls := [] }
  else
    let result := schemaBuilderForward o domain pages
    let schema := result.1
    let instances := result.2
    let schemaFn := schemaFileName domain
    let instanceWrites := instances.map fun kv =>
      (joinPath outputDir (instanceFileName kv.1), instanceFileContent schemaFn kv.2)
    let mergedWrite :=
      (joinPath outputDir (mergedFileName domain), unlines (mergedLines schemaFn instances))
    { dirCreated := true
      writes := (joinPath outputDir schemaFn, schema) :: instanceWrites ++ [mergedWrite]
      schema := schema
      instances := instances
      pages_processed := pages.length
      schemaCalls := [(domain, schemaPagesContent pages)]
      instanceCalls := pages.map fun p => (extractSchema o domain pages, domain, p.text, p.url) }

/-- The schema text the pipeline computes from the crawled pages (the value
bound to the schema variable of the driver). -/
def pipelineSchema (o : SchemaOracle) (fetch : String → FetchResult)
    (domain : String) (urls : List String) : String :=
  extractSchema o domain (crawlPagesSchema fetch urls)

/-- The instance text the pipeline computes for one page (the value stored
in the instances dict for that page). -/
def pipelineInstanceOf (o : SchemaOracle) (fetch : String → FetchResult)
    (domain : String) (urls : List String) (p : Page) : String :=
  extractInstances o (pipelineSchema o fetch domain urls) domain p

/-! ## Deterministic stubs (concrete instances of the oracles, used to
evaluate the embeddings at concrete inputs) -/

/-- A stub extractor whose model call returns the empty string and whose
parser accepts every input (rdflib parses the empty document as the empty
graph). -/
def emptyExtractOracle : ExtractOracle where
  extract := fun _ _ => ("")
  parse := fun _ => .ok ([])

/-- A deterministic stub for the schema-pipeline oracle: concatenations of
the call inputs. -/
def stubSchemaOracle : SchemaOracle where
  schemaExtract := fun domain content => ("SCHEMA ") ++ domain ++ ("|") ++ content
  instanceExtract := fun _ _ content url => (":s :from ") ++ url ++ (" ; :text ") ++ content ++ (" .")

/-- A deterministic stub for the incremental-builder oracle. -/
def stubLandscapeOracle : LandscapeOracle where
  extractRdf := fun _ text url => ("RDF(") ++ text ++ ("@") ++ url ++ (")")
  schemaInfer := fun domain sample => ("SCHEMA(") ++ domain ++ ("|") ++ sample ++ (")")
  merge := fun canonical newRdf url _ => canonical ++ ("+") ++ newRdf ++ ("@") ++ url

/-- A stub fetcher that succeeds on every url with a fixed markdown body. -/
def stubFetch : String → FetchResult :=
  fun _ => FetchResult.scrape (some ("stub content")) none

/-- A stub fetcher whose client raises on every url. -/
def stubFetchFail : String → FetchResult :=
  fun _ => FetchResult.exn ("connection refused")

/-- Two concrete pages with distinct urls. -/
def stubPage1 : Page := ⟨("https://grammarly.com"), ("text one"), ("")⟩

/-- A second concrete page with a distinct url. -/
def stubPage2 : Page := ⟨("https://jasper.ai"), ("text two"), ("")⟩

/-! ## Theorems: slugify (kg-openai.py) -/

/-- ofNat inverts toNat on valid code points. -/
theorem charOfNat_toNat {n : Nat} (h : n.isValidChar) : (Char.ofNat n).toNat = n := by
  unfold Char.ofNat
  rw [dif_pos h]
  unfold Char.ofNatAux Char.toNat
  simp [UInt32.toNat, BitVec.toNat_ofNatLt]

/-- Char.isUpper in terms of the code point. -/
theorem isUpper_iff_toNat (c : Char) : c.isUpper = true ↔ 65 ≤ c.toNat ∧ c.toNat ≤ 90 := by
  simp [Char.isUpper, Char.toNat, UInt32.le_def, BitVec.le_def]
  exact Iff.rfl

/-- Char.toLower in terms of the code point. -/
theorem toLower_toNat (c : Char) :
    (c.toLower).toNat = if 65 ≤ c.toNat ∧ c.toNat ≤ 90 then c.toNat + 32 else c.toNat := by
  unfold Char.toLower
  by_cases h : c.toNat ≥ 65 ∧ c.toNat ≤ 90
  · have hv : (c.toNat + 32).isValidChar := Or.inl (by omega)
    simp only [ge_iff_le, h, and_self, if_true, if_pos]
    exact charOfNat_toNat hv
  · simp only [ge_iff_le, h, if_false, if_neg h]

/-- The ASCII lowering never returns an uppercase letter. -/
theorem isUpper_toLower (c : Char) : c.toLower.isUpper = false := by
  rw [Bool.eq_false_iff]
  intro h
  rw [isUpper_iff_toNat, toLower_toNat] at h
  by_cases hc : 65 ≤ c.toNat ∧ c.toNat ≤ 90
  · rw [if_pos hc] at h; omega
  · rw [if_neg hc] at h; exact hc h

/-- Every character of the run-substitution output is an underscore or an
alphanumeric character of the input. -/
theorem mem_subRunsAux {c : Char} :
    ∀ (b : Bool) (l : List Char), c ∈ subRunsAux b l →
      c = '_' ∨ (c.isAlphanum = true ∧ c ∈ l) := by
  intro b l
  induction l generalizing b with
  | nil => simp [subRunsAux]
  | cons a as ih =>
    intro h
    rw [subRunsAux] at h
    by_cases ha : a.isAlphanum
    · rw [if_pos ha] at h
      rcases List.mem_cons.1 h with rfl | h
      · exact Or.inr ⟨ha, List.mem_cons_self _ _⟩
      · rcases ih false h with h' | ⟨h1, h2⟩
        · exact Or.inl h'
        · exact Or.inr ⟨h1, List.mem_cons_of_mem _ h2⟩
    · rw [if_neg ha] at h
      by_cases hb : b
      · subst hb
        rw [if_pos rfl] at h
        rcases ih true h with h' | ⟨h1, h2⟩
        · exact Or.inl h'
        · exact Or.inr ⟨h1, List.mem_cons_of_mem _ h2⟩
      · rw [Bool.not_eq_true] at hb
        subst hb
        rw [if_neg (by simp)] at h
        rcases List.mem_cons.1 h with rfl | h
        · exact Or.inl rfl
        · rcases ih true h with h' | ⟨h1, h2⟩
          · exact Or.inl h'
          · exact Or.inr ⟨h1, List.mem_cons_of_mem _ h2⟩

/-- The underscore-collapse output is a selection of input characters. -/
theorem mem_collapseUndAux {c : Char} :
    ∀ (b : Bool) (l : List Char), c ∈ collapseUndAux b l → c ∈ l := by
  intro b l
  induction l generalizing b with
  | nil => simp [collapseUndAux]
  | cons a as ih =>
    intro h
    rw [collapseUndAux] at h
    by_cases ha : a = '_'
    · rw [if_pos ha] at h
      by_cases hb : b
      · subst hb; rw [if_pos rfl] at h
        exact List.mem_cons_of_mem _ (ih true h)
      · rw [Bool.not_eq_true] at hb; subst hb
        rw [if_neg (by simp)] at h
        rcases List.mem_cons.1 h with rfl | h
        · exact ha ▸ List.mem_cons_self _ _
        · exact List.mem_cons_of_mem _ (ih true h)
    · rw [if_neg ha] at h
      rcases List.mem_cons.1 h with rfl | h
      · exact List.mem_cons_self _ _
      · exact List.mem_cons_of_mem _ (ih false h)

/-- The end-strip output is a selection of input characters. -/
theorem mem_stripUnd {c : Char} {l : List Char} (h : c ∈ stripUnd l) : c ∈ l := by
  unfold stripUnd at h
  rw [List.mem_reverse] at h
  have h1 := (List.dropWhile_suffix (l := (l.dropWhile (· = '_')).reverse) (· = '_')).subset h
  rw [List.mem_reverse] at h1
  exact (List.dropWhile_suffix (· = '_')).subset h1

/-- The head of a dropWhile output fails the dropped predicate. -/
theorem head?_dropWhile {α : Type} (p : α → Bool) (l : List α) :
    ∀ a, (l.dropWhile p).head? = some a → p a = false := by
  induction l with
  | nil => simp [List.dropWhile]
  | cons c cs ih =>
    intro a h
    rw [List.dropWhile_cons] at h
    by_cases hc : p c
    · rw [if_pos hc] at h; exact ih a h
    · rw [if_neg hc] at h
      simp only [List.head?_cons, Option.some_inj] at h
      subst h
      exact Bool.not_eq_true _ ▸ (by simpa using hc)

/-- A nonempty dropWhile output keeps the last element of the input. -/
theorem getLast?_dropWhile {α : Type} (p : α → Bool) (l : List α)
    (h : l.dropWhile p ≠ []) : (l.dropWhile p).getLast? = l.getLast? := by
  obtain ⟨t, ht⟩ := List.dropWhile_suffix (l := l) p
  conv_rhs => rw [← ht]
  exact (List.getLast?_append_of_ne_nil t h).symm

/-- The head of the collapse output under an open run is never an underscore. -/
theorem head?_collapseUndAux_true :
    ∀ (l : List Char) (a : Char), (collapseUndAux true l).head? = some a → a ≠ '_' := by
  intro l
  induction l with
  | nil => simp [collapseUndAux]
  | cons c cs ih =>
    intro a h
    rw [collapseUndAux] at h
    by_cases hc : c = '_'
    · rw [if_pos hc, if_pos rfl] at h
      exact ih a h
    · rw [if_neg hc] at h
      simp only [List.head?_cons, Option.some_inj] at h
      subst h
      exact hc

/-- The collapse output never holds two adjacent underscores. -/
theorem chain'_collapseUndAux :
    ∀ (b : Bool) (l : List Char),
      (collapseUndAux b l).Chain' (fun a b => ¬(a = '_' ∧ b = '_')) := by
  intro b l
  induction l generalizing b with
  | nil => simp [collapseUndAux]
  | cons c cs ih =>
    rw [collapseUndAux]
    by_cases hc : c = '_'
    · rw [if_pos hc]
      by_cases hb : b
      · subst hb; rw [if_pos rfl]; exact ih true
      · rw [Bool.not_eq_true] at hb; subst hb
        rw [if_neg (by simp)]
        rw [List.chain'_cons']
        refine ⟨?_, ih true⟩
        intro y hy hcon
        exact head?_collapseUndAux_true cs y hy hcon.2
    · rw [if_neg hc]
      rw [List.chain'_cons']
      refine ⟨?_, ih false⟩
      intro y _ hcon
      exact hc hcon.1

/-- The alphanumeric characters of the run-substitution output are those of
the input, in order. -/
theorem filter_subRunsAux :
    ∀ (b : Bool) (l : List Char),
      (subRunsAux b l).filter Char.isAlphanum = l.filter Char.isAlphanum := by
  intro b l
  induction l generalizing b with
  | nil => simp [subRunsAux]
  | cons c cs ih =>
    rw [subRunsAux]
    by_cases hc : c.isAlphanum
    · rw [if_pos hc, List.filter_cons, if_pos hc, List.filter_cons, if_pos hc, ih]
    · rw [if_neg hc]
      by_cases hb : b
      · subst hb
        rw [if_pos rfl, ih, List.filter_cons, if_neg hc]
      · rw [Bool.not_eq_true] at hb; subst hb
        rw [if_neg (by simp), List.filter_cons, if_neg (by decide),
          List.filter_cons, if_neg hc, ih]

/-- The alphanumeric characters of the underscore-collapse output are those
of the input, in order. -/
theorem filter_collapseUndAux :
    ∀ (b : Bool) (l : List Char),
      (collapseUndAux b l).filter Char.isAlphanum = l.filter Char.isAlphanum := by
  intro b l
  induction l generalizing b with
  | nil => simp [collapseUndAux]
  | cons c cs ih =>
    rw [collapseUndAux]
    by_cases hc : c = '_'
    · subst hc
      rw [if_pos rfl]
      by_cases hb : b
      · subst hb
        rw [if_pos rfl, ih, List.filter_cons, if_neg (by decide)]
      · rw [Bool.not_eq_true] at hb; subst hb
        rw [if_neg (by simp), List.filter_cons, if_neg (by decide),
          List.filter_cons, if_neg (by decide), ih]
    · rw [if_neg hc, List.filter_cons, List.filter_cons, ih]

/-- Dropping leading underscores keeps the alphanumeric characters. -/
theorem filter_dropWhileUnd (l : List Char) :
    (l.dropWhile (· = '_')).filter Char.isAlphanum = l.filter Char.isAlphanum := by
  induction l with
  | nil => simp [List.dropWhile]
  | cons c cs ih =>
    rw [List.dropWhile_cons]
    by_cases hc : c = '_'
    · subst hc
      rw [if_pos (by simp), ih, List.filter_cons, if_neg (by decide)]
    · rw [if_neg (by simpa using hc)]

/-- The end-strip keeps the alphanumeric characters. -/
theorem filter_stripUnd (l : List Char) :
    (stripUnd l).filter Char.isAlphanum = l.filter Char.isAlphanum := by
  unfold stripUnd
  rw [List.filter_reverse, filter_dropWhileUnd, List.filter_reverse,
    List.reverse_reverse, filter_dropWhileUnd]

/-- The character list of a slug, unfolded. -/
theorem slugify_toList (s : String) :
    (slugify s).toList
      = stripUnd (collapseUnd (subRuns ((pyStrip s.toList).map Char.toLower))) := rfl

/-- The head of the end-strip output is never an underscore. -/
theorem head?_stripUnd (l : List Char) : (stripUnd l).head? ≠ some '_' := by
  unfold stripUnd
  intro h
  rw [List.head?_reverse] at h
  have hne : (l.dropWhile (· = '_')).reverse.dropWhile (· = '_') ≠ [] := by
    intro he
    rw [he] at h
    simp at h
  rw [getLast?_dropWhile _ _ hne, List.getLast?_reverse] at h
  have := head?_dropWhile (· = '_') l _ h
  simp at this

/-- The last character of the end-strip output is never an underscore. -/
theorem getLast?_stripUnd (l : List Char) : (stripUnd l).getLast? ≠ some '_' := by
  unfold stripUnd
  intro h
  rw [List.getLast?_reverse] at h
  have := head?_dropWhile (· = '_') _ _ h
  simp at this

/-- The end-strip of the collapse output never holds two adjacent
underscores. -/
theorem chain'_stripUnd_collapse (l : List Char) :
    (stripUnd (collapseUnd l)).Chain' (fun a b => ¬(a = '_' ∧ b = '_')) := by
  unfold stripUnd
  rw [List.chain'_reverse]
  have h1 : (collapseUnd l).Chain' (fun a b => ¬(a = '_' ∧ b = '_')) :=
    chain'_collapseUndAux false l
  have h2 := h1.suffix (List.dropWhile_suffix (· = '_'))
  have h3 : ((collapseUnd l).dropWhile (· = '_')).reverse.Chain'
      (flip fun a b => ¬(a = '_' ∧ b = '_')) := by
    rw [List.chain'_reverse]
    exact h2.imp fun a b h hc => h hc
  exact (h3.suffix (List.dropWhile_suffix (· = '_'))).imp fun a b h hc => h hc

/-- C7: slugify of the sample string is the expected slug; and for every
input string, slugify lowercases (no uppercase character survives), turns
every character that is kept into a lowercase alphanumeric or an underscore
with no two underscores adjacent, keeps exactly the alphanumeric characters
of the lowercased stripped input in order, and its result neither starts nor
ends with an underscore. -/
theorem slugify_meets_spec :
    slugify ("AI Writing Tools!") = ("ai_writing_tools") ∧
    ∀ s : String,
      (∀ c ∈ (slugify s).toList, c = '_' ∨ (c.isAlphanum = true ∧ c.isUpper = false)) ∧
      (slugify s).toList.head? ≠ some '_' ∧
      (slugify s).toList.getLast? ≠ some '_' ∧
      (slugify s).toList.Chain' (fun a b => ¬(a = '_' ∧ b = '_')) ∧
      (slugify s).toList.filter Char.isAlphanum
        = ((pyStrip s.toList).map Char.toLower).filter Char.isAlphanum := by
  refine ⟨by decide, fun s => ⟨?_, ?_, ?_, ?_, ?_⟩⟩
  · intro c hc
    rw [slugify_toList] at hc
    have h1 := mem_collapseUndAux false _ (mem_stripUnd hc)
    rcases mem_subRunsAux false _ h1 with h' | ⟨ha, hm⟩
    · exact Or.inl h'
    · refine Or.inr ⟨ha, ?_⟩
      obtain ⟨d, _, rfl⟩ := List.mem_map.1 hm
      exact isUpper_toLower d
  · rw [slugify_toList]; exact head?_stripUnd _
  · rw [slugify_toList]; exact getLast?_stripUnd _
  · rw [slugify_toList]; exact chain'_stripUnd_collapse _
  · rw [slugify_toList, filter_stripUnd]
    unfold collapseUnd subRuns
    rw [filter_collapseUndAux, filter_subRunsAux]

/-! ## Theorems: kg-openai.py triple conversion -/

/-- C6 counterexample: the object of this triple contains whitespace (a tab)
yet the code converts it to a URI node, not a literal — the literal
heuristic tests only for the space character. -/
theorem objectNode_whitespace_counterexample :
    (("a\tb").toList.any Char.isWhitespace = true) ∧
    objectNode ("http://example.org/") ⟨("amazon"), ("absorbs"), ("a\tb")⟩
      = RdfNode.uri (("http://example.org/") ++ slugify ("a\tb")) ∧
    ∀ v : String, objectNode ("http://example.org/") ⟨("amazon"), ("absorbs"), ("a\tb")⟩
      ≠ RdfNode.lit v := by
  refine ⟨by decide, by decide, ?_⟩
  intro v
  simp [objectNode, strContains, containsSeq, startsWithL]

/-- C6 amended: for every extracted triple, the two graph additions use URI
nodes built from the slugified subject and predicate, and the object becomes
a literal if and only if it contains a space character; an object without a
space becomes the slugified URI node. -/
theorem tripleAdditions_nodes (base theme : String) (t : Triple) :
    tripleAdditions base theme t
      = [(RdfNode.uri (base ++ slugify t.subject), RdfNode.uri (base ++ slugify t.predicate),
          objectNode base t),
         (RdfNode.uri (base ++ slugify theme), RdfNode.uri (base ++ ("relatesTo")),
          RdfNode.uri (base ++ slugify t.subject))] ∧
    (objectNode base t = RdfNode.lit t.object ↔ strContains (" ") t.object = true) ∧
    (strContains (" ") t.object = false →
      objectNode base t = RdfNode.uri (base ++ slugify t.object)) := by
  refine ⟨rfl, ?_, ?_⟩
  · unfold objectNode
    by_cases h : strContains (" ") t.object
    · simp [h]
    · simp [h]
  · intro h
    unfold objectNode
    rw [h]
    simp

/-! ## Theorems: kg-anthropic.py extractor -/

/-- C3 counterexample: with the model returning the empty string and the
parser accepting it (rdflib parses the empty document), forward returns an
empty fragment with a parsed graph and no error, so the disjunction
"non-empty fragment with graph, or error" fails. -/
theorem extract_nonempty_counterexample :
    ¬ ((((themeExtractorForward emptyExtractOracle ("t") ("x")).rdf_turtle ≠ ("")) ∧
        (themeExtractorForward emptyExtractOracle ("t") ("x")).graph ≠ none) ∨
       (themeExtractorForward emptyExtractOracle ("t") ("x")).error ≠ none) := by
  simp [themeExtractorForward, emptyExtractOracle]

/-- C3 amended: forward returns either a parsed graph with no error, or no
graph together with an error — never both null (the fragment text is not
guaranteed non-empty); parse failure is recovered by returning the raw
fragment text and the parse error, parse success by the raw text and the
graph. -/
theorem themeExtractor_result_shape (o : ExtractOracle) (theme text : String) :
    (((themeExtractorForward o theme text).graph ≠ none ∧
      (themeExtractorForward o theme text).error = none) ∨
     ((themeExtractorForward o theme text).graph = none ∧
      (themeExtractorForward o theme text).error ≠ none)) ∧
    (∀ e, o.parse (o.extract theme text) = .error e →
      themeExtractorForward o theme text
        = { rdf_turtle := o.extract theme text, graph := none, error := some e }) ∧
    (∀ g, o.parse (o.extract theme text) = .ok g →
      themeExtractorForward o theme text
        = { rdf_turtle := o.extract theme text, graph := some g, error := none }) := by
  unfold themeExtractorForward
  cases h : o.parse (o.extract theme text) <;> simp [h]

/-! ## Theorems: landscape.py incremental merge loop -/

/-- The merge loop computes the left fold of the merge step. -/
theorem mergeLoop_fst (o : LandscapeOracle) (domain : String) :
    ∀ (pages : List Page) (canonical : String),
      (mergeLoop o domain canonical pages).1 = pages.foldl (mergeStep o domain) canonical := by
  intro pages
  induction pages with
  | nil => intro canonical; rfl
  | cons p rest ih =>
    intro canonical
    rw [mergeLoop, List.foldl_cons]
    exact ih _

/-- The merge loop issues one extraction call per page, in input order. -/
theorem mergeLoop_snd (o : LandscapeOracle) (domain : String) :
    ∀ (pages : List Page) (canonical : String),
      (mergeLoop o domain canonical pages).2 = pages.map (extractCallOf domain) := by
  intro pages
  induction pages with
  | nil => intro canonical; rfl
  | cons p rest ih =>
    intro canonical
    rw [mergeLoop, List.map_cons]
    exact congrArg _ (ih _)

/-- C1: with the extraction and merge calls fixed as a deterministic oracle,
forward folds the merge step over the pages in input order — the canonical
text after step i is the merge of the canonical text after step i-1 with
page i's extracted fragment — and the terminal result carries the final
canonical text and the input page count. -/
theorem landscapeForward_is_fold (o : LandscapeOracle) (domain : String) (pages : List Page) :
    (landscapeForward o domain pages).canonical_graph
      = pages.foldl (mergeStep o domain) (seedRdf o domain pages) ∧
    (∀ i : Fin pages.length,
      (pages.take (i.val + 1)).foldl (mergeStep o domain) (seedRdf o domain pages)
        = mergeStep o domain
            ((pages.take i.val).foldl (mergeStep o domain) (seedRdf o domain pages))
            (pages.get i)) ∧
    (landscapeForward o domain pages).pages_processed = pages.length := by
  refine ⟨?_, ?_, ?_⟩
  · unfold landscapeForward seedRdf
    by_cases h : pages.length > 3
    · simp only [h, if_true, if_pos]
      exact mergeLoop_fst o domain pages _
    · simp only [h, if_false, if_neg h]
      exact mergeLoop_fst o domain pages _
  · intro i
    have ht : pages.take (i.val + 1) = pages.take i.val ++ [pages.get i] := by
      rw [List.take_succ]
      congr 1
      rw [List.getElem?_eq_getElem i.isLt]
      rfl
    rw [ht, List.foldl_append, List.foldl_cons, List.foldl_nil]
  · unfold landscapeForward
    by_cases h : pages.length > 3
    · simp only [h, if_true, if_pos]
    · simp only [h, if_false, if_neg h]

/-- C2: the schema-inference call happens exactly when more than 3 pages are
given; its one input is the domain with the fragments of the first 3 pages
joined by the separator, and the canonical accumulator is seeded with its
output before the merge loop; with 3 or fewer pages no schema call happens
and the accumulator starts empty. -/
theorem landscapeForward_schema_call (o : LandscapeOracle) (domain : String)
    (pages : List Page) :
    (landscapeForward o domain pages).schemaCalls
      = (if pages.length > 3 then
          [(domain, String.intercalate ("\n---\n")
            ((pages.take 3).map (extractPageRdf o domain)))]
        else []) ∧
    (landscapeForward o domain pages).canonical_graph
      = pages.foldl (mergeStep o domain)
          (if pages.length > 3 then
            o.schemaInfer domain (String.intercalate ("\n---\n")
              ((pages.take 3).map (extractPageRdf o domain)))
          else ("")) := by
  unfold landscapeForward
  by_cases h : pages.length > 3
  · simp only [h, if_true, if_pos]
    exact ⟨trivial, mergeLoop_fst o domain pages _⟩
  · simp only [h, if_false, if_neg h]
    exact ⟨trivial, mergeLoop_fst o domain pages _⟩

/-- C9: the per-page extraction call trace of forward is the first 3 pages
again followed by all pages when more than 3 pages are given (the first 3
pages are extracted twice), and just the page list otherwise; hence the
extraction oracle is invoked pages + 3 times, respectively pages times. -/
theorem landscapeForward_extract_calls (o : LandscapeOracle) (domain : String)
    (pages : List Page) :
    (landscapeForward o domain pages).extractCalls
      = (if pages.length > 3 then (pages.take 3).map (extractCallOf domain) else [])
          ++ pages.map (extractCallOf domain) ∧
    (landscapeForward o domain pages).extractCalls.length
      = if pages.length > 3 then pages.length + 3 else pages.length := by
  have hmain : (landscapeForward o domain pages).extractCalls
      = (if pages.length > 3 then (pages.take 3).map (extractCallOf domain) else [])
          ++ pages.map (extractCallOf domain) := by
    unfold landscapeForward
    by_cases h : pages.length > 3
    · simp only [h, if_true, if_pos]
      rw [mergeLoop_snd o domain pages _]
    · simp only [h, if_false, if_neg h]
      rw [mergeLoop_snd o domain pages _, List.nil_append]
  refine ⟨hmain, ?_⟩
  rw [hmain]
  by_cases h : pages.length > 3
  · simp only [h, if_true, if_pos, List.length_append, List.length_map, List.length_take]
    omega
  · simp only [h, if_false, if_neg h, List.nil_append, List.length_map]

/-! ## Theorems: landscape.py crawl loop -/

/-- The length of a filterMap is the count of inputs the function keeps. -/
theorem length_filterMap_eq_countP {α β : Type} (f : α → Option β) (l : List α) :
    (l.filterMap f).length = l.countP (fun a => (f a).isSome) := by
  induction l with
  | nil => rfl
  | cons a as ih =>
    rw [List.filterMap_cons, List.countP_cons]
    cases h : f a with
    | none => simp [h, ih]
    | some b => simp [h, ih]

/-- C4: the crawl loop keeps exactly one page per successfully fetched url
(a filterMap over the urls in order), the final page count is the number of
successful fetches, every failing branch prints a diagnostic, and a failed
url leaves the processing of the remaining urls unchanged. -/
theorem crawlPages_skips_failures (fetch : String → FetchResult) (urls : List String) :
    (crawlPages fetch urls).1 = urls.filterMap (fun u => fetchPage (fetch u) u) ∧
    (crawlPages fetch urls).1.length
      = urls.countP (fun u => (fetchPage (fetch u) u).isSome) ∧
    (∀ r u, fetchPage r u = none → fetchDiagnostics r u ≠ []) ∧
    (∀ u rest, fetchPage (fetch u) u = none →
      (crawlPages fetch (u :: rest)).1 = (crawlPages fetch rest).1) := by
  have hmain : ∀ us : List String,
      (crawlPages fetch us).1 = us.filterMap (fun u => fetchPage (fetch u) u) := by
    intro us
    induction us with
    | nil => rfl
    | cons u rest ih =>
      rw [crawlPages, List.filterMap_cons]
      cases h : fetchPage (fetch u) u with
      | none => simpa [h] using ih
      | some p => simpa [h] using ih
  refine ⟨hmain urls, ?_, ?_, ?_⟩
  · rw [hmain urls]
    exact length_filterMap_eq_countP _ _
  · intro r u h
    cases r with
    | exn msg => simp [fetchDiagnostics]
    | falsy => simp [fetchDiagnostics]
    | scrape markdown metadata =>
      simp only [fetchPage] at h
      simp only [fetchDiagnostics]
      by_cases hm : truthy markdown
      · simp [hm] at h
      · simp [hm]
    | dict markdown content dataMarkdown metadata dataMetadata =>
      simp only [fetchPage] at h
      simp only [fetchDiagnostics]
      by_cases hm : truthy (pyOr (pyOr markdown content) dataMarkdown)
      · simp [hm] at h
      · simp [hm]
    | other => simp [fetchDiagnostics]
  · intro u rest h
    rw [crawlPages, h]

/-! ## Theorems: landscape_schema.py per-page instance extraction -/

/-- Inserting a key no binding holds appends the new binding. -/
theorem dictInsert_fresh (d : List (String × String)) (k v : String)
    (h : ∀ kv ∈ d, kv.1 ≠ k) : dictInsert d k v = d ++ [(k, v)] := by
  have hc : d.any (fun kv => kv.1 = k) = false := by
    rw [List.any_eq_false]
    intro kv hkv
    simpa using h kv hkv
  unfold dictInsert
  rw [hc]
  simp

/-- With pairwise distinct urls, the instances loop appends one binding per
page, in page order. -/
theorem instancesLoop_eq_append (o : SchemaOracle) (schema domain : String) :
    ∀ (pages : List Page) (d : List (String × String)),
      (∀ p ∈ pages, ∀ kv ∈ d, kv.1 ≠ p.url) → (pages.map Page.url).Nodup →
      instancesLoop o schema domain d pages
        = d ++ pages.map (fun p => (p.url, extractInstances o schema domain p)) := by
  intro pages
  induction pages with
  | nil => intro d _ _; simp [instancesLoop]
  | cons p rest ih =>
    intro d hfresh hnd
    rw [instancesLoop, dictInsert_fresh d p.url _ (hfresh p (List.mem_cons_self _ _))]
    rw [List.map_cons, List.nodup_cons] at hnd
    have hfresh' : ∀ q ∈ rest, ∀ kv ∈ d ++ [(p.url, extractInstances o schema domain p)],
        kv.1 ≠ q.url := by
      intro q hq kv hkv
      rcases List.mem_append.1 hkv with hkv | hkv
      · exact hfresh q (List.mem_cons_of_mem _ hq) kv hkv
      · rcases List.mem_singleton.1 hkv with rfl
        intro he
        have he' : p.url = q.url := he
        exact hnd.1 (by rw [he']; exact List.mem_map_of_mem Page.url hq)
    rw [ih _ hfresh' hnd.2, List.map_cons, List.append_assoc]
    rfl

/-- Looking up a page url in the mapped association list returns that page's
value when the urls are pairwise distinct. -/
theorem dictFind_map_url (f : Page → String) :
    ∀ (pages : List Page) (p : Page), (pages.map Page.url).Nodup → p ∈ pages →
      dictFind (pages.map (fun q => (q.url, f q))) p.url = some (f p) := by
  intro pages
  induction pages with
  | nil => intro p _ hp; exact absurd hp (List.not_mem_nil p)
  | cons q rest ih =>
    intro p hnd hp
    rw [List.map_cons, List.nodup_cons] at hnd
    by_cases he : q.url = p.url
    · have hpq : p = q := by
        rcases List.mem_cons.1 hp with rfl | hp
        · rfl
        · exact absurd (by rw [he]; exact List.mem_map_of_mem Page.url hp) hnd.1
      subst hpq
      unfold dictFind
      rw [List.map_cons, List.find?_cons]
      simp
    · have hp' : p ∈ rest := by
        rcases List.mem_cons.1 hp with rfl | hp
        · exact absurd rfl he
        · exact hp
      unfold dictFind
      rw [List.map_cons, List.find?_cons]
      have hd : (decide ((q.url, f q).1 = p.url)) = false := by
        simpa using he
      rw [hd]
      exact ih p hnd.2 hp'

/-- C8: with the instance-extraction call deterministic, the instance stored
for a page depends only on the schema, the domain and that page: two runs
over different page lists (in any order, the schema held fixed) store the
same instance text for every common page. -/
theorem instances_no_cross_page_interference (o : SchemaOracle) (schema domain : String)
    (ps1 ps2 : List Page) (p : Page)
    (h1 : p ∈ ps1) (h2 : p ∈ ps2)
    (n1 : (ps1.map Page.url).Nodup) (n2 : (ps2.map Page.url).Nodup) :
    dictFind (instancesLoop o schema domain [] ps1) p.url
      = some (extractInstances o schema domain p) ∧
    dictFind (instancesLoop o schema domain [] ps2) p.url
      = dictFind (instancesLoop o schema domain [] ps1) p.url := by
  have e1 : dictFind (instancesLoop o schema domain [] ps1) p.url
      = some (extractInstances o schema domain p) := by
    rw [instancesLoop_eq_append o schema domain ps1 [] (by simp) n1, List.nil_append]
    exact dictFind_map_url _ ps1 p n1 h1
  have e2 : dictFind (instancesLoop o schema domain [] ps2) p.url
      = some (extractInstances o schema domain p) := by
    rw [instancesLoop_eq_append o schema domain ps2 [] (by simp) n2, List.nil_append]
    exact dictFind_map_url _ ps2 p n2 h2
  exact ⟨e1, e2.trans e1.symm⟩

/-- C8 witness: two concrete two-page runs in opposite orders store the same
instance text for the common page. -/
theorem instances_no_cross_page_interference_witness :
    dictFind (instancesLoop stubSchemaOracle ("S") ("AI Writing Tools")
        [] [stubPage1, stubPage2]) stubPage1.url
      = some (extractInstances stubSchemaOracle ("S") ("AI Writing Tools") stubPage1) ∧
    dictFind (instancesLoop stubSchemaOracle ("S") ("AI Writing Tools")
        [] [stubPage2, stubPage1]) stubPage1.url
      = dictFind (instancesLoop stubSchemaOracle ("S") ("AI Writing Tools")
        [] [stubPage1, stubPage2]) stubPage1.url :=
  instances_no_cross_page_interference stubSchemaOracle ("S") ("AI Writing Tools")
    [stubPage1, stubPage2] [stubPage2, stubPage1] stubPage1
    (by decide) (by decide) (by decide) (by decide)

/-! ## Theorems: landscape_schema.py pipeline driver -/

/-- C10: when the crawl yields no page, the pipeline creates the output
directory, returns the empty record (empty schema, empty instance dict, zero
pages processed), writes no file and issues no model call. -/
theorem buildLandscape_early_return (o : SchemaOracle) (fetch : String → FetchResult)
    (domain : String) (urls : List String) (outputDir : String)
    (h : crawlPagesSchema fetch urls = []) :
    buildLandscape o fetch domain urls outputDir
      = { dirCreated := true, writes := [], schema := (""), instances := []
          pages_processed := 0, schemaCalls := [], instanceCalls := [] } := by
  unfold buildLandscape
  rw [h]
  simp

/-- C10 witness: a client that raises on the only url leads to the empty
record with the directory still created. -/
theorem buildLandscape_early_return_witness :
    buildLandscape stubSchemaOracle stubFetchFail ("AI Writing Tools")
        [("https://grammarly.com")] ("output")
      = { dirCreated := true, writes := [], schema := (""), instances := []
          pages_processed := 0, schemaCalls := [], instanceCalls := [] } :=
  buildLandscape_early_return stubSchemaOracle stubFetchFail ("AI Writing Tools")
    [("https://grammarly.com")] ("output") (by decide)

/-! ## Theorems: string occurrence helpers for the merged-file claims -/

/-- A prefix of a list is a prefix of any extension of it. -/
theorem startsWithL_append (n : List Char) :
    ∀ (l m : List Char), startsWithL n l = true → startsWithL n (l ++ m) = true := by
  induction n with
  | nil => intro l m _; rfl
  | cons a as ih =>
    intro l m h
    cases l with
    | nil => simp [startsWithL] at h
    | cons b bs =>
      rw [List.cons_append]
      simp only [startsWithL, Bool.and_eq_true] at h ⊢
      exact ⟨h.1, ih bs m h.2⟩

/-- The empty needle occurs in every list. -/
theorem containsSeq_nil (m : List Char) : containsSeq [] m = true := by
  cases m <;> simp [containsSeq, startsWithL]

/-- An occurrence in a list survives appending to the right. -/
theorem containsSeq_append_left (n : List Char) :
    ∀ (l m : List Char), containsSeq n l = true → containsSeq n (l ++ m) = true := by
  intro l
  induction l with
  | nil =>
    intro m h
    cases n with
    | nil => exact containsSeq_nil m
    | cons a as => simp [containsSeq, startsWithL] at h
  | cons c cs ih =>
    intro m h
    rw [List.cons_append]
    simp only [containsSeq, Bool.or_eq_true] at h ⊢
    rcases h with h | h
    · exact Or.inl (startsWithL_append n (c :: cs) m h)
    · exact Or.inr (ih m h)

/-- A needle does not begin at a list whose head differs. -/
theorem startsWithL_cons_false {a b : Char} (as bs : List Char) (h : a ≠ b) :
    startsWithL (a :: as) (b :: bs) = false := by
  simp [startsWithL, h]

/-- The merged-file import line contains the import keyword for every schema
file name. -/
theorem strContains_importLine (fn : String) :
    strContains ("owl:imports") (("<> owl:imports <./") ++ fn ++ ("> .")) = true := by
  unfold strContains
  have he : (("<> owl:imports <./") ++ fn ++ ("> .")).toList
      = ("<> owl:imports <./").toList ++ (fn.toList ++ ("> .").toList) := by
    rw [String.append_assoc]
    rfl
  rw [he]
  exact containsSeq_append_left _ _ _ (by decide)

/-- The merged-file import line does not start with a prefix declaration. -/
theorem strStartsWith_atPrefix_importLine (fn : String) :
    strStartsWith ("@prefix") (("<> owl:imports <./") ++ fn ++ ("> .")) = false := by
  unfold strStartsWith
  have he : (("<> owl:imports <./") ++ fn ++ ("> .")).toList
      = '<' :: (("> owl:imports <./").toList ++ (fn.toList ++ ("> .").toList)) := by
    rw [String.append_assoc]
    rfl
  rw [he]
  exact startsWithL_cons_false _ _ (by decide)

/-- The provenance banner of a merged-file section does not start with a
prefix declaration, whatever the url. -/
theorem strStartsWith_atPrefix_banner (url : String) :
    strStartsWith ("@prefix") (("### From ") ++ url ++ (" ###")) = false := by
  unfold strStartsWith
  have he : (("### From ") ++ url ++ (" ###")).toList
      = '#' :: (("## From ").toList ++ (url.toList ++ (" ###").toList)) := by
    rw [String.append_assoc]
    rfl
  rw [he]
  exact startsWithL_cons_false _ _ (by decide)

/-! ## Theorems: the merged all-instances file -/

/-- The header lines split around the import statement. -/
theorem mergedHeaderLines_eq (fn : String) :
    mergedHeaderLines fn = mergedHeaderPre ++ importLine fn :: mergedHeaderPost := rfl

/-- Every line a section contributes is the blank line, the provenance
banner, or a fragment line that does not start with a prefix declaration. -/
theorem mergedSection_lines_cases {url inst line : String}
    (h : line ∈ mergedSectionLines url inst) :
    line = ("") ∨ line = (("### From ") ++ url ++ (" ###")) ∨
      (line ∈ strSplitLines inst ∧ strStartsWith ("@prefix") line = false) := by
  unfold mergedSectionLines at h
  rcases List.mem_cons.1 h with rfl | h
  · exact Or.inl rfl
  rcases List.mem_cons.1 h with rfl | h
  · exact Or.inr (Or.inl rfl)
  · refine Or.inr (Or.inr ⟨List.mem_of_mem_filter h, ?_⟩)
    have hp := List.of_mem_filter h
    simpa using hp

/-- The header holds exactly one line containing the import keyword. -/
theorem countP_header_importKeyword (fn : String) :
    (mergedHeaderLines fn).countP (fun l => strContains ("owl:imports") l) = 1 := by
  rw [mergedHeaderLines_eq, List.countP_append, List.countP_cons]
  simp only [importLine]
  have h1 : mergedHeaderPre.countP (fun l => strContains ("owl:imports") l) = 0 := by decide
  have h2 : mergedHeaderPost.countP (fun l => strContains ("owl:imports") l) = 0 := by decide
  rw [h1, h2]
  simp [strContains_importLine fn]

/-- The prefix-declaration lines of the header are exactly its first six
lines. -/
theorem filter_header_atPrefix (fn : String) :
    (mergedHeaderLines fn).filter (fun l => strStartsWith ("@prefix") l)
      = (mergedHeaderLines fn).take 6 := by
  rw [mergedHeaderLines_eq, List.filter_append, List.filter_cons]
  simp only [importLine]
  rw [strStartsWith_atPrefix_importLine fn]
  have h1 : mergedHeaderPre.filter (fun l => strStartsWith ("@prefix") l)
      = mergedHeaderPre.take 6 := by decide
  have h2 : mergedHeaderPost.filter (fun l => strStartsWith ("@prefix") l) = [] := by decide
  rw [h1, h2, if_neg Bool.false_ne_true, List.append_nil]
  rfl

/-- The instance sections of the merged file contribute no line containing
the import keyword when the fragments and urls hold none. -/
theorem countP_sections_importKeyword (pages : List Page) (inst : Page → String)
    (hfrag : ∀ p ∈ pages, ∀ line ∈ strSplitLines (inst p),
      strContains ("owl:imports") line = false)
    (hurl : ∀ p ∈ pages,
      strContains ("owl:imports") (("### From ") ++ p.url ++ (" ###")) = false) :
    (((pages.map fun p => (p.url, inst p)).map
        (fun kv => mergedSectionLines kv.1 kv.2)).flatten).countP
      (fun l => strContains ("owl:imports") l) = 0 := by
  rw [List.countP_eq_zero]
  intro line hline
  rw [List.mem_flatten] at hline
  obtain ⟨sec, hsec, hmem⟩ := hline
  rw [List.map_map, List.mem_map] at hsec
  obtain ⟨p, hp, rfl⟩ := hsec
  rcases mergedSection_lines_cases hmem with rfl | rfl | ⟨hsp, _⟩
  · decide
  · simp [hurl p hp]
  · simp [hfrag p hp line hsp]

/-- The instance sections of the merged file contribute no prefix
declaration line: the source strips them before concatenation. -/
theorem filter_sections_atPrefix (pages : List Page) (inst : Page → String) :
    (((pages.map fun p => (p.url, inst p)).map
        (fun kv => mergedSectionLines kv.1 kv.2)).flatten).filter
      (fun l => strStartsWith ("@prefix") l) = [] := by
  rw [List.filter_eq_nil_iff]
  intro line hline
  rw [List.mem_flatten] at hline
  obtain ⟨sec, hsec, hmem⟩ := hline
  rw [List.map_map, List.mem_map] at hsec
  obtain ⟨p, hp, rfl⟩ := hsec
  rcases mergedSection_lines_cases hmem with rfl | rfl | ⟨_, hsp⟩
  · decide
  · simp [strStartsWith_atPrefix_banner]
  · simp [hsp]

/-- C5: with at least one page fetched and distinct page urls, the pipeline
performs exactly one schema-file write, one instance-file write per page and
one merged-file write, in that order; and provided no instance fragment or
url mentions the import keyword, the merged file holds exactly one
owl-imports line and its prefix-declaration lines are exactly the six
distinct header declarations (the fragments own prefix lines having been
stripped). -/
theorem buildLandscape_files_and_merged (o : SchemaOracle) (fetch : String → FetchResult)
    (domain : String) (urls : List String) (outputDir : String)
    (hne : crawlPagesSchema fetch urls ≠ [])
    (hnd : ((crawlPagesSchema fetch urls).map Page.url).Nodup)
    (hfrag : ∀ p ∈ crawlPagesSchema fetch urls,
      ∀ line ∈ strSplitLines (pipelineInstanceOf o fetch domain urls p),
        strContains ("owl:imports") line = false)
    (hurl : ∀ p ∈ crawlPagesSchema fetch urls,
      strContains ("owl:imports") (("### From ") ++ p.url ++ (" ###")) = false) :
    (buildLandscape o fetch domain urls outputDir).writes
      = (joinPath outputDir (schemaFileName domain), pipelineSchema o fetch domain urls)
        :: ((crawlPagesSchema fetch urls).map fun p =>
              (joinPath outputDir (instanceFileName p.url),
               instanceFileContent (schemaFileName domain)
                 (pipelineInstanceOf o fetch domain urls p)))
        ++ [(joinPath outputDir (mergedFileName domain),
             unlines (mergedLines (schemaFileName domain)
               ((crawlPagesSchema fetch urls).map fun p =>
                 (p.url, pipelineInstanceOf o fetch domain urls p))))] ∧
    (buildLandscape o fetch domain urls outputDir).writes.length
      = (crawlPagesSchema fetch urls).length + 2 ∧
    (mergedLines (schemaFileName domain)
        ((crawlPagesSchema fetch urls).map fun p =>
          (p.url, pipelineInstanceOf o fetch domain urls p))).countP
        (fun l => strContains ("owl:imports") l) = 1 ∧
    (mergedLines (schemaFileName domain)
        ((crawlPagesSchema fetch urls).map fun p =>
          (p.url, pipelineInstanceOf o fetch domain urls p))).filter
        (fun l => strStartsWith ("@prefix") l)
      = (mergedHeaderLines (schemaFileName domain)).take 6 ∧
    ((mergedLines (schemaFileName domain)
        ((crawlPagesSchema fetch urls).map fun p =>
          (p.url, pipelineInstanceOf o fetch domain urls p))).filter
        (fun l => strStartsWith ("@prefix") l)).Nodup := by
  have hinst : instancesLoop o (extractSchema o domain (crawlPagesSchema fetch urls))
      domain [] (crawlPagesSchema fetch urls)
      = (crawlPagesSchema fetch urls).map
          (fun p => (p.url, pipelineInstanceOf o fetch domain urls p)) := by
    rw [instancesLoop_eq_append o _ domain (crawlPagesSchema fetch urls) []
      (by simp) hnd, List.nil_append]
    rfl
  have hwrites : (buildLandscape o fetch domain urls outputDir).writes
      = (joinPath outputDir (schemaFileName domain), pipelineSchema o fetch domain urls)
        :: ((crawlPagesSchema fetch urls).map fun p =>
              (joinPath outputDir (instanceFileName p.url),
               instanceFileContent (schemaFileName domain)
                 (pipelineInstanceOf o fetch domain urls p)))
        ++ [(joinPath outputDir (mergedFileName domain),
             unlines (mergedLines (schemaFileName domain)
               ((crawlPagesSchema fetch urls).map fun p =>
                 (p.url, pipelineInstanceOf o fetch domain urls p))))] := by
    simp only [buildLandscape, schemaBuilderForward]
    rw [if_neg hne]
    simp only [hinst, List.map_map]
    rfl
  have hcount : (mergedLines (schemaFileName domain)
      ((crawlPagesSchema fetch urls).map fun p =>
        (p.url, pipelineInstanceOf o fetch domain urls p))).countP
      (fun l => strContains ("owl:imports") l) = 1 := by
    rw [mergedLines, List.countP_append, countP_header_importKeyword,
      countP_sections_importKeyword (crawlPagesSchema fetch urls)
        (pipelineInstanceOf o fetch domain urls) hfrag hurl]
  have hfilter : (mergedLines (schemaFileName domain)
      ((crawlPagesSchema fetch urls).map fun p =>
        (p.url, pipelineInstanceOf o fetch domain urls p))).filter
      (fun l => strStartsWith ("@prefix") l)
      = (mergedHeaderLines (schemaFileName domain)).take 6 := by
    rw [mergedLines, List.filter_append, filter_header_atPrefix,
      filter_sections_atPrefix (crawlPagesSchema fetch urls)
        (pipelineInstanceOf o fetch domain urls), List.append_nil]
  refine ⟨hwrites, ?_, hcount, hfilter, ?_⟩
  · rw [hwrites]
    simp
  · rw [hfilter]
    have ht : (mergedHeaderLines (schemaFileName domain)).take 6
        = mergedHeaderPre.take 6 := rfl
    rw [ht]
    decide

/-- C5 witness: three successfully fetched stub pages lead to exactly five
write events: one schema file, three instance files and one merged file. -/
theorem buildLandscape_files_and_merged_witness :
    (buildLandscape stubSchemaOracle stubFetch ("AI Writing Tools")
        [("https://grammarly.com"), ("https://jasper.ai"), ("https://copy.ai")]
        ("output")).writes.length
      = (crawlPagesSchema stubFetch
          [("https://grammarly.com"), ("https://jasper.ai"), ("https://copy.ai")]).length
        + 2 :=
  (buildLandscape_files_and_merged stubSchemaOracle stubFetch ("AI Writing Tools")
    [("https://grammarly.com"), ("https://jasper.ai"), ("https://copy.ai")] ("output")
    (by decide) (by decide) (by decide) (by decide)).2.1

end DspyKg
